import Mathlib

/-!
Shallow embedding of the personal-weather-agent repository (Go).

The embedding covers:
* the compass classifiers `degToCompass` (the four-point variant from the
  table-only agent file and the two-point variant from the easterly agent
  file), together with `isEasterly`;
* the forecast normalizers `toForecastDays` (wind) and `toRainForecasts`
  (rain, with its hourly scan), including Go's panic behaviour on
  out-of-range slice indexing (modelled as `Option.none`);
* the easterly analysis (`countEasterlyDays`, `buildEasterlyAnalysis`);
* one orchestration cycle's notification decision (`runCycle`);
* the next-trigger computation of the scheduling loop (`nextTrigger`);
* the agent constructor `New`.

Floating-point quantities are modelled as rationals.  The Go expression
`float64(int(deg+360) % 360)` is modelled exactly: `int(x)` truncates
toward zero (`goInt`) and Go's `%` on integers is T-mod (`goMod360`).
Calendar-date parsing delegated by the Go code to `time.Parse` with the
fixed layouts `2006-01-02` and `2006-01-02T15:04` is modelled by
`parseDate` and `parseDateTime`.
-/

namespace WeatherAgent

/-! ### Compass classifiers (internal/agent) -/

/-- Go's `int(x)` conversion from float to int: truncation toward zero. -/
def goInt (q : ℚ) : ℤ :=
  if q < 0 then -⌊-q⌋ else ⌊q⌋

/-- Go's `a % 360` on machine integers: T-mod, the result keeps the sign
of the dividend `a`. -/
def goMod360 (a : ℤ) : ℤ :=
  if a < 0 then -((-a) % 360) else a % 360

/-- The normalization both Go classifiers apply before branching:
`float64(int(deg+360) % 360)`. -/
def goNormalize (deg : ℚ) : ℤ :=
  goMod360 (goInt (deg + 360))

/-- True mathematical normalization of an angle into `[0, 360)`:
`((deg % 360) + 360) % 360` over the reals, i.e. `deg - 360⌊deg/360⌋`. -/
def mathNormalize (deg : ℚ) : ℚ :=
  deg - 360 * ⌊deg / 360⌋

/-- `degToCompass` from the table-only agent file (four-point policy):
after normalization, E on [30,150), W on [210,330), S on [150,210),
N on the rest. -/
def degToCompass4 (deg : ℚ) : String :=
  let d := goNormalize deg
  if 30 ≤ d ∧ d < 150 then "E"
  else if 210 ≤ d ∧ d < 330 then "W"
  else if 150 ≤ d ∧ d < 210 then "S"
  else "N"

/-- `degToCompass` from the easterly agent file (two-point policy):
"E" exactly when the normalized value is strictly between 0 and 180,
"W" otherwise. -/
def degToCompass2 (deg : ℚ) : String :=
  let d := goNormalize deg
  if 0 < d ∧ d < 180 then "E" else "W"

/-- `isEasterly` from the easterly agent file. -/
def isEasterly (deg : ℚ) : Bool :=
  let d := goNormalize deg
  decide (0 < d ∧ d < 180)

/-! ### Calendar dates (Go `time.Parse` with fixed layouts) -/

/-- A calendar date at day granularity (what `time.Parse "2006-01-02"`
produces, up to the fields the program reads). -/
structure Date where
  year : ℕ
  month : ℕ
  day : ℕ
deriving DecidableEq, Repr

/-- A parsed hourly timestamp (layout `2006-01-02T15:04`). -/
structure DateTime where
  date : Date
  hour : ℕ
  minute : ℕ
deriving DecidableEq, Repr

/-- Gregorian leap-year rule, as implemented by Go's `time` package. -/
def isLeap (y : ℕ) : Bool :=
  (y % 4 == 0 && y % 100 != 0) || y % 400 == 0

/-- Number of days in a month, as validated by Go's `time.Parse`. -/
def daysInMonth (y m : ℕ) : ℕ :=
  if m = 2 then (if isLeap y then 29 else 28)
  else if m = 4 ∨ m = 6 ∨ m = 9 ∨ m = 11 then 30
  else 31

/-- The numeric value of a decimal digit character, if it is one. -/
def digit? (c : Char) : Option ℕ :=
  if c.isDigit then some (c.toNat - 48) else none

/-- Models Go `time.Parse("2006-01-02", s)`: exactly ten characters,
four-digit year, two-digit month and day separated by dashes, with the
month in [1,12] and the day valid for the month (leap years included). -/
def parseDate (s : String) : Option Date :=
  match s.data with
  | [y1, y2, y3, y4, s1, m1, m2, s2, d1, d2] =>
    match digit? y1, digit? y2, digit? y3, digit? y4,
          digit? m1, digit? m2, digit? d1, digit? d2 with
    | some a1, some a2, some a3, some a4, some b1, some b2, some c1, some c2 =>
      if s1 = '-' ∧ s2 = '-' then
        let y := a1 * 1000 + a2 * 100 + a3 * 10 + a4
        let mo := b1 * 10 + b2
        let da := c1 * 10 + c2
        if 1 ≤ mo ∧ mo ≤ 12 ∧ 1 ≤ da ∧ da ≤ daysInMonth y mo then
          some ⟨y, mo, da⟩
        else none
      else none
    | _, _, _, _, _, _, _, _ => none
  | _ => none

/-- Models Go `time.Parse("2006-01-02T15:04", s)`: a date, the literal
`T`, then a two-digit hour in [0,23] and two-digit minute in [0,59]
separated by a colon. -/
def parseDateTime (s : String) : Option DateTime :=
  match s.data with
  | [y1, y2, y3, y4, s1, m1, m2, s2, d1, d2, t, h1, h2, s3, n1, n2] =>
    match parseDate (String.mk [y1, y2, y3, y4, s1, m1, m2, s2, d1, d2]),
          digit? h1, digit? h2, digit? n1, digit? n2 with
    | some date, some e1, some e2, some f1, some f2 =>
      if t = 'T' ∧ s3 = ':' then
        let hr := e1 * 10 + e2
        let mi := f1 * 10 + f2
        if hr ≤ 23 ∧ mi ≤ 59 then some ⟨date, hr, mi⟩ else none
      else none
    | _, _, _, _, _ => none
  | _ => none

/-! ### Wind normalizer (internal/weather, `toForecastDays`) -/

/-- One daily wind forecast record. -/
structure ForecastDay where
  date : Date
  windSpeedMax : ℚ
  windGustMax : ℚ
  windDirMean : ℚ
deriving DecidableEq, Repr

/-- The distinct error values produced by the two normalizers. -/
inductive NormErr where
  /-- `errors.New("no daily data returned")` / `errors.New("no daily rain data")`. -/
  | emptyData
  /-- `errors.New("open-meteo arrays differ in length")`. -/
  | shapeMismatch
  /-- `fmt.Errorf("parse date %q: %w", s, err)`, carrying the offending string. -/
  | dateParse (s : String)
deriving DecidableEq, Repr

/-- The provider's `daily` block for the wind query: parallel arrays. -/
structure openMeteoDaily where
  time : List String
  windSpeedMax : List ℚ
  windGustMax : List ℚ
  windDirMean : List ℚ

/-- The loop body of `toForecastDays`: one record per date, in order,
stopping at the first unparseable date.  Only ever invoked after the
length check, so the lists run out simultaneously; the final catch-all
branch is unreachable there. -/
def buildDays : List String → List ℚ → List ℚ → List ℚ →
    Except NormErr (List ForecastDay)
  | [], _, _, _ => .ok []
  | t :: ts, sp :: sps, gu :: gus, di :: dis =>
    match parseDate t with
    | none => .error (.dateParse t)
    | some date =>
      match buildDays ts sps gus dis with
      | .error e => .error e
      | .ok rest => .ok (⟨date, sp, gu, di⟩ :: rest)
  | _ :: _, _, _, _ => .ok []

/-- `toForecastDays` from internal/weather: empty-data check, then the
three length checks, then the per-date loop. -/
def toForecastDays (d : openMeteoDaily) : Except NormErr (List ForecastDay) :=
  if d.time = [] then .error .emptyData
  else if d.time.length ≠ d.windSpeedMax.length ∨
          d.time.length ≠ d.windGustMax.length ∨
          d.time.length ≠ d.windDirMean.length then .error .shapeMismatch
  else buildDays d.time d.windSpeedMax d.windGustMax d.windDirMean

/-! ### Rain normalizer (internal/weather, `toRainForecasts`) -/

/-- One daily rain forecast record with its hourly detail. -/
structure RainForecast where
  date : Date
  precipProb : ℤ
  precipMM : ℚ
  morningRainProb : List ℤ
  morningRainMM : List ℚ
  afternoonProb : List ℤ
deriving DecidableEq, Repr

/-- The provider's `daily` block for the rain query. -/
structure rainDaily where
  time : List String
  precipSum : List ℚ
  precipProb : List ℤ

/-- The provider's `hourly` block for the rain query. -/
structure rainHourly where
  time : List String
  precipProb : List ℤ
  precip : List ℚ

/-- The full rain payload. -/
structure rainResponse where
  daily : rainDaily
  hourly : rainHourly

/-- The inner hourly loop of `toRainForecasts` for one daily date.  The Go
loop walks `r.Hourly.Time` with index `j` and reads `r.Hourly.PrecipProb[j]`
and `r.Hourly.Precip[j]` unguarded, so a metric array shorter than the
consumed index is a runtime panic, modelled as `none`.  Walking the two
metric lists in lockstep (taking heads and tails) is observationally the
same as absolute indexing because `j` advances by one per time entry. -/
def hourlyScan (d : Date) : List String → List ℤ → List ℚ →
    Option (List ℤ × List ℚ × List ℤ)
  | [], _, _ => some ([], [], [])
  | t :: ts, probs, precs =>
    match parseDateTime t with
    | none => hourlyScan d ts probs.tail precs.tail
    | some dt =>
      if dt.date = d then
        let mstep : Option (List ℤ × List ℚ) :=
          if 6 ≤ dt.hour ∧ dt.hour ≤ 10 then
            match probs.head?, precs.head? with
            | some p, some c => some ([p], [c])
            | _, _ => none
          else some ([], [])
        let astep : Option (List ℤ) :=
          if 15 ≤ dt.hour ∧ dt.hour ≤ 18 then
            match probs.head? with
            | some p => some [p]
            | none => none
          else some []
        match mstep, astep with
        | some (mp, mc), some ap =>
          match hourlyScan d ts probs.tail precs.tail with
          | some (m1, m2, a1) => some (mp ++ m1, mc ++ m2, ap ++ a1)
          | none => none
        | _, _ => none
      else hourlyScan d ts probs.tail precs.tail

/-- The outer daily loop of `toRainForecasts`.  Per daily entry: parse the
date (unparseable is fatal), read `r.Daily.PrecipProb[i]` and
`r.Daily.PrecipSum[i]` (out of range is a panic, `none`), run the hourly
scan, and emit the record. -/
def buildRain (hourly : rainHourly) :
    List String → List ℚ → List ℤ → Option (Except NormErr (List RainForecast))
  | [], _, _ => some (.ok [])
  | t :: ts, sums, probs =>
    match parseDate t with
    | none => some (.error (.dateParse t))
    | some date =>
      match probs.head?, sums.head? with
      | some pb, some sm =>
        match hourlyScan date hourly.time hourly.precipProb hourly.precip with
        | none => none
        | some (m1, m2, a1) =>
          match buildRain hourly ts sums.tail probs.tail with
          | none => none
          | some (.error e) => some (.error e)
          | some (.ok rest) => some (.ok (⟨date, pb, sm, m1, m2, a1⟩ :: rest))
      | _, _ => none

/-- `toRainForecasts` from internal/weather: empty-data check, then the
daily loop.  `none` models a Go runtime panic, `some` a normal return. -/
def toRainForecasts (r : rainResponse) : Option (Except NormErr (List RainForecast)) :=
  if r.daily.time = [] then some (.error .emptyData)
  else buildRain r.hourly r.daily.time r.daily.precipSum r.daily.precipProb

/-- Reference view of the morning-probability samples collected by the
hourly scan: the probabilities of the hourly entries whose timestamp
parses, matches the day, and has hour in [6,10], in source order. -/
def morningProbSpec (d : Date) (hours : List (String × ℤ)) : List ℤ :=
  hours.filterMap fun tp =>
    match parseDateTime tp.1 with
    | some dt => if dt.date = d ∧ 6 ≤ dt.hour ∧ dt.hour ≤ 10 then some tp.2 else none
    | none => none

/-- Reference view of the morning-precipitation samples (hour in [6,10]). -/
def morningMMSpec (d : Date) (hours : List (String × ℚ)) : List ℚ :=
  hours.filterMap fun tp =>
    match parseDateTime tp.1 with
    | some dt => if dt.date = d ∧ 6 ≤ dt.hour ∧ dt.hour ≤ 10 then some tp.2 else none
    | none => none

/-- Reference view of the afternoon-probability samples (hour in [15,18]). -/
def afternoonProbSpec (d : Date) (hours : List (String × ℤ)) : List ℤ :=
  hours.filterMap fun tp =>
    match parseDateTime tp.1 with
    | some dt => if dt.date = d ∧ 15 ≤ dt.hour ∧ dt.hour ≤ 18 then some tp.2 else none
    | none => none

/-! ### Easterly analysis (internal/agent) -/

/-- `countEasterlyDays`: the number of days whose mean direction is
easterly. -/
def countEasterlyDays : List ForecastDay → ℕ
  | [] => 0
  | d :: rest => (if isEasterly d.windDirMean then 1 else 0) + countEasterlyDays rest

/-- The dominant-direction label computed by `buildEasterlyAnalysis`. -/
def analysisDominant (days : List ForecastDay) : String :=
  let eastCount := countEasterlyDays days
  let westCount := days.length - eastCount
  if eastCount > westCount then "E ✈️"
  else if westCount > eastCount then "W"
  else "Mixed"

/-- `buildEasterlyAnalysis`: the one-line summary with the dominant label
and both counts. -/
def buildEasterlyAnalysis (days : List ForecastDay) : String :=
  "Dominant: " ++ analysisDominant days ++
    " | East: " ++ toString (countEasterlyDays days) ++
    " days | West: " ++ toString (days.length - countEasterlyDays days) ++ " days\n"

/-! ### One orchestration cycle (internal/agent, `Run`) -/

/-- `formatTelegramTable`: wraps the table in a Markdown code fence. -/
def formatTelegramTable (table : String) : String :=
  "```\n" ++ table ++ "```"

/-- Outcome of one pass of the `Run` loop body: either the loop returns an
error (only for a missing dependency), or the cycle completes and proceeds
to scheduling, having attempted to send the listed messages in order. -/
inductive CycleOutcome where
  | abort (msg : String)
  | done (sent : List String)
deriving DecidableEq, Repr

/-- The decision structure of one cycle of `Run` (easterly agent file):
missing clients abort; otherwise, with a chat destination configured, an
LLM success sends the fenced table + analysis and then the summary, an LLM
failure sends only the fenced table + analysis.  `llm` is the outcome of
`Ollama.Generate` (`none` = error).  Send failures are logged and do not
remove messages from the attempt sequence. -/
def runCycle (hasWeather hasOllama : Bool) (token chatID report analysis : String)
    (llm : Option String) : CycleOutcome :=
  if !hasWeather then .abort "weather client is missing"
  else if !hasOllama then .abort "ollama client is missing"
  else
    match llm with
    | none =>
      if token ≠ "" ∧ chatID ≠ "" then
        .done [formatTelegramTable report ++ "\n" ++ analysis]
      else .done []
    | some summary =>
      if token ≠ "" ∧ chatID ≠ "" then
        .done [formatTelegramTable report ++ "\n" ++ analysis, summary]
      else .done []

/-! ### Scheduling (internal/agent, end of the `Run` loop) -/

/-- "Today at runHour:runMinute" for the UTC instant `now` (seconds since
epoch, fractional part = sub-second precision):
`time.Date(now.Year(), now.Month(), now.Day(), runHour, runMinute, 0, 0, UTC)`. -/
def todayTrigger (now : ℚ) (runHour runMinute : ℕ) : ℚ :=
  86400 * ⌊now / 86400⌋ + 3600 * runHour + 60 * runMinute

/-- The next wake instant: today's trigger if `now` is strictly before it
(`now.Before(next)`), otherwise that instant plus 24 hours. -/
def nextTrigger (now : ℚ) (runHour runMinute : ℕ) : ℚ :=
  if now < todayTrigger now runHour runMinute then todayTrigger now runHour runMinute
  else todayTrigger now runHour runMinute + 86400

/-! ### Constructor (internal/agent, `New`) -/

/-- The agent configuration.  The two client pointers are modelled by
their presence. -/
structure Config where
  locationName : String
  forecastDays : ℤ
  weather : Bool
  ollama : Bool
  telegramToken : String
  telegramChatID : String
deriving DecidableEq, Repr

/-- The agent: a wrapped configuration. -/
structure Agent where
  cfg : Config
deriving DecidableEq, Repr

/-- `New`: defaults a non-positive `ForecastDays` to 15, keeps everything
else as given. -/
def New (cfg : Config) : Agent :=
  if cfg.forecastDays ≤ 0 then { cfg := { cfg with forecastDays := 15 } }
  else { cfg := cfg }

end WeatherAgent

namespace WeatherAgent

/-! ### Helper lemmas about the normalization -/

theorem goInt_of_nonneg (q : ℚ) (h : 0 ≤ q) : goInt q = ⌊q⌋ := by
  simp only [goInt, if_neg (not_lt.mpr h)]

theorem goMod360_of_nonneg (a : ℤ) (h : 0 ≤ a) : goMod360 a = a % 360 := by
  simp only [goMod360, if_neg (not_lt.mpr h)]

theorem goNormalize_eq_floor_emod (d : ℚ) (h : -360 ≤ d) :
    goNormalize d = ⌊d⌋ % 360 := by
  have h0 : (0 : ℚ) ≤ d + 360 := by linarith
  have hcast : d + 360 = d + ((360 : ℤ) : ℚ) := by norm_num
  have hfl : ⌊d + 360⌋ = ⌊d⌋ + 360 := by
    rw [hcast, Int.floor_add_int]
  have hge : (-360 : ℤ) ≤ ⌊d⌋ := Int.le_floor.mpr (by exact_mod_cast h)
  rw [goNormalize, goInt_of_nonneg _ h0, hfl, goMod360_of_nonneg _ (by omega)]
  omega

theorem goNormalize_floor (d : ℚ) (h0 : 0 ≤ d) (h1 : d < 360) :
    goNormalize d = ⌊d⌋ := by
  have hge : (0 : ℤ) ≤ ⌊d⌋ := Int.floor_nonneg.mpr h0
  have hlt : ⌊d⌋ < 360 := Int.floor_lt.mpr (by exact_mod_cast h1)
  rw [goNormalize_eq_floor_emod d (by linarith)]
  omega

theorem mathNormalize_nonneg (d : ℚ) : 0 ≤ mathNormalize d := by
  have := Int.floor_le (d / 360)
  have h360 : (0 : ℚ) < 360 := by norm_num
  rw [mathNormalize]
  nlinarith [this]

theorem mathNormalize_lt (d : ℚ) : mathNormalize d < 360 := by
  have := Int.lt_floor_add_one (d / 360)
  rw [mathNormalize]
  nlinarith [this]

theorem floor_mathNormalize (d : ℚ) : ⌊mathNormalize d⌋ = ⌊d⌋ % 360 := by
  have hsub : mathNormalize d = d - ((360 * ⌊d / 360⌋ : ℤ) : ℚ) := by
    rw [mathNormalize]; push_cast; ring
  have hfl : ⌊mathNormalize d⌋ = ⌊d⌋ - 360 * ⌊d / 360⌋ := by
    rw [hsub, Int.floor_sub_int]
  have hge : (0 : ℤ) ≤ ⌊mathNormalize d⌋ := Int.floor_nonneg.mpr (mathNormalize_nonneg d)
  have hlt : ⌊mathNormalize d⌋ < 360 := Int.floor_lt.mpr (by exact_mod_cast mathNormalize_lt d)
  omega

theorem goNormalize_mathNormalize (d : ℚ) :
    goNormalize (mathNormalize d) = ⌊d⌋ % 360 := by
  rw [goNormalize_eq_floor_emod _ (by linarith [mathNormalize_nonneg d]),
    floor_mathNormalize]
  omega

theorem degToCompass4_congr {a b : ℚ} (h : goNormalize a = goNormalize b) :
    degToCompass4 a = degToCompass4 b := by
  simp only [degToCompass4, h]

theorem degToCompass2_congr {a b : ℚ} (h : goNormalize a = goNormalize b) :
    degToCompass2 a = degToCompass2 b := by
  simp only [degToCompass2, h]

/-! ### C1, C2, C8: the classifiers -/

/-- C1 (amended): for every angle `d ≥ -360`, the mathematical
normalization lands in `[0,360)`, the normalization the code applies
before classification lands in `[0,360)`, and both the four-point and the
two-point classification are invariant under normalization (this covers
negative inputs down to -360, inputs ≥ 360, and non-integer inputs; below
-360 the unrestricted claim fails: at -450 the code's normalization leaves
`[0,360)` and the four-point classification is not invariant, and at -630
the two-point classification is not invariant). -/
theorem normalize_classify_invariant (d : ℚ) (h : -360 ≤ d) :
    (0 ≤ mathNormalize d ∧ mathNormalize d < 360) ∧
    (0 ≤ goNormalize d ∧ goNormalize d < 360) ∧
    degToCompass4 (mathNormalize d) = degToCompass4 d ∧
    degToCompass2 (mathNormalize d) = degToCompass2 d := by
  have hinv : goNormalize (mathNormalize d) = goNormalize d := by
    rw [goNormalize_mathNormalize, goNormalize_eq_floor_emod d h]
  refine ⟨⟨mathNormalize_nonneg d, mathNormalize_lt d⟩, ?_, ?_, ?_⟩
  · rw [goNormalize_eq_floor_emod d h]
    constructor
    · exact Int.emod_nonneg _ (by norm_num)
    · exact Int.emod_lt_of_pos _ (by norm_num)
  · exact degToCompass4_congr hinv
  · exact degToCompass2_congr hinv

/-- C1 witness: the invariant instantiated at the negative non-integer
angle -90.5. -/
theorem normalize_classify_invariant_witness :
    degToCompass4 (mathNormalize (-181/2)) = degToCompass4 (-181/2) ∧
    degToCompass2 (mathNormalize (-181/2)) = degToCompass2 (-181/2) ∧
    0 ≤ goNormalize (-181/2) := by
  have h := normalize_classify_invariant (-181/2) (by norm_num)
  exact ⟨h.2.2.1, h.2.2.2, h.2.1.1⟩

/-- C1 counterexample: at -450 the code's normalization returns -90, which
is not in [0,360), and the four-point classification is not invariant
under true normalization; at -630 the two-point classification is not
invariant either. -/
theorem normalize_classify_counterexample :
    goNormalize (-450) = -90 ∧
    ¬ (0 ≤ goNormalize (-450) ∧ goNormalize (-450) < 360) ∧
    mathNormalize (-450) = 270 ∧
    degToCompass4 (mathNormalize (-450)) = "W" ∧
    degToCompass4 (-450) = "N" ∧
    mathNormalize (-630) = 90 ∧
    degToCompass2 (mathNormalize (-630)) = "E" ∧
    degToCompass2 (-630) = "W" := by
  have e1 : goNormalize (-450 : ℚ) = -90 := by
    norm_num [goNormalize, goInt, goMod360]
  have e2 : mathNormalize (-450 : ℚ) = 270 := by
    norm_num [mathNormalize]
  have e3 : mathNormalize (-630 : ℚ) = 90 := by
    norm_num [mathNormalize]
  refine ⟨e1, by rw [e1]; norm_num, e2, ?_, ?_, e3, ?_, ?_⟩
  · rw [e2]; norm_num [degToCompass4, goNormalize, goInt, goMod360]
  · norm_num [degToCompass4, goNormalize, goInt, goMod360]
  · rw [e3]; norm_num [degToCompass2, goNormalize, goInt, goMod360]
  · norm_num [degToCompass2, goNormalize, goInt, goMod360]

/-- C2 (amended): for every angle `d`, `isEasterly` agrees with the
two-point classifier returning "E"; on normalized angles the classifier
returns "E" exactly on `[1,180)` (the truncation to int moves the lower
end of the open interval (0,180) up to 1); 0 and 180 are both non-East,
90 is East, 270 is West. -/
theorem twoPoint_east_iff (d : ℚ) :
    (isEasterly d = true ↔ degToCompass2 d = "E") ∧
    (0 ≤ d → d < 360 → (degToCompass2 d = "E" ↔ 1 ≤ d ∧ d < 180)) ∧
    degToCompass2 0 = "W" ∧ degToCompass2 180 = "W" ∧
    degToCompass2 90 = "E" ∧ degToCompass2 270 = "W" := by
  refine ⟨?_, ?_, ?_, ?_, ?_, ?_⟩
  · by_cases hc : 0 < goNormalize d ∧ goNormalize d < 180
    · simp [isEasterly, degToCompass2, hc]
    · simp [isEasterly, degToCompass2, hc]
  · intro h0 h1
    rw [degToCompass2]
    simp only [goNormalize_floor d h0 h1]
    constructor
    · intro he
      by_cases hc : 0 < ⌊d⌋ ∧ ⌊d⌋ < 180
      · constructor
        · exact_mod_cast le_trans (by exact_mod_cast hc.1) (Int.floor_le d)
        · exact lt_of_not_le fun hge => absurd hc.2
            (not_lt.mpr (Int.le_floor.mpr (by exact_mod_cast hge)))
      · rw [if_neg hc] at he
        exact absurd he (by decide)
    · intro ⟨ha, hb⟩
      have h1' : (1 : ℤ) ≤ ⌊d⌋ := Int.le_floor.mpr (by exact_mod_cast ha)
      have h2' : ⌊d⌋ < 180 := Int.floor_lt.mpr (by exact_mod_cast hb)
      rw [if_pos ⟨by omega, h2'⟩]
  · norm_num [degToCompass2, goNormalize, goInt, goMod360]
  · norm_num [degToCompass2, goNormalize, goInt, goMod360]
  · norm_num [degToCompass2, goNormalize, goInt, goMod360]
  · norm_num [degToCompass2, goNormalize, goInt, goMod360]

/-- C2 witness: the East characterization applied at 90 degrees, and the
`isEasterly` equivalence at 90 degrees. -/
theorem twoPoint_east_iff_witness :
    degToCompass2 90 = "E" ∧ isEasterly 90 = true := by
  have h := twoPoint_east_iff 90
  have he : degToCompass2 90 = "E" :=
    (h.2.1 (by norm_num) (by norm_num)).mpr (by norm_num)
  exact ⟨he, h.1.mpr he⟩

/-- C2 counterexample: 0.5 is a normalized angle inside the open interval
(0,180), yet the two-point classifier returns "W" for it, so East is not
exactly (0,180). -/
theorem twoPoint_east_counterexample :
    (0 : ℚ) ≤ 1/2 ∧ (1/2 : ℚ) < 360 ∧
    (0 : ℚ) < 1/2 ∧ (1/2 : ℚ) < 180 ∧
    degToCompass2 (1/2) = "W" := by
  refine ⟨by norm_num, by norm_num, by norm_num, by norm_num, ?_⟩
  norm_num [degToCompass2, goNormalize, goInt, goMod360]

/-- C8 (confirmed): on normalized angles the four-point classifier follows
the half-open intervals East = [30,150), West = [210,330),
South = [150,210), North = [330,360) ∪ [0,30), and the exact boundary
values resolve to the upper category. -/
theorem fourPoint_intervals (d : ℚ) (h0 : 0 ≤ d) (h1 : d < 360) :
    ((30 ≤ d ∧ d < 150) → degToCompass4 d = "E") ∧
    ((210 ≤ d ∧ d < 330) → degToCompass4 d = "W") ∧
    ((150 ≤ d ∧ d < 210) → degToCompass4 d = "S") ∧
    ((330 ≤ d ∨ d < 30) → degToCompass4 d = "N") ∧
    degToCompass4 30 = "E" ∧ degToCompass4 150 = "S" ∧
    degToCompass4 210 = "W" ∧ degToCompass4 330 = "N" := by
  have hfl : ∀ (lo : ℤ), (lo : ℚ) ≤ d → lo ≤ ⌊d⌋ := fun lo h => Int.le_floor.mpr h
  have hfu : ∀ (hi : ℤ), d < (hi : ℚ) → ⌊d⌋ < hi := fun hi h => Int.floor_lt.mpr h
  have hrw : degToCompass4 d =
      (if 30 ≤ ⌊d⌋ ∧ ⌊d⌋ < 150 then "E"
       else if 210 ≤ ⌊d⌋ ∧ ⌊d⌋ < 330 then "W"
       else if 150 ≤ ⌊d⌋ ∧ ⌊d⌋ < 210 then "S"
       else "N") := by
    simp only [degToCompass4, goNormalize_floor d h0 h1]
  refine ⟨?_, ?_, ?_, ?_, ?_, ?_, ?_, ?_⟩
  · intro ⟨ha, hb⟩
    have l1 := hfl 30 (by exact_mod_cast ha)
    have l2 := hfu 150 (by exact_mod_cast hb)
    rw [hrw, if_pos ⟨l1, l2⟩]
  · intro ⟨ha, hb⟩
    have l1 := hfl 210 (by exact_mod_cast ha)
    have l2 := hfu 330 (by exact_mod_cast hb)
    rw [hrw, if_neg (by omega), if_pos ⟨l1, l2⟩]
  · intro ⟨ha, hb⟩
    have l1 := hfl 150 (by exact_mod_cast ha)
    have l2 := hfu 210 (by exact_mod_cast hb)
    rw [hrw, if_neg (by omega), if_neg (by omega), if_pos ⟨l1, l2⟩]
  · intro hc
    have : 330 ≤ ⌊d⌋ ∨ ⌊d⌋ < 30 := by
      rcases hc with hc | hc
      · exact Or.inl (hfl 330 (by exact_mod_cast hc))
      · exact Or.inr (hfu 30 (by exact_mod_cast hc))
    rw [hrw, if_neg (by omega), if_neg (by omega), if_neg (by omega)]
  · norm_num [degToCompass4, goNormalize, goInt, goMod360]
  · norm_num [degToCompass4, goNormalize, goInt, goMod360]
  · norm_num [degToCompass4, goNormalize, goInt, goMod360]
  · norm_num [degToCompass4, goNormalize, goInt, goMod360]

/-- C8 witness: the interval facts applied at 90 (East) and 300 (West). -/
theorem fourPoint_intervals_witness :
    degToCompass4 90 = "E" ∧ degToCompass4 300 = "W" := by
  refine ⟨?_, ?_⟩
  · exact (fourPoint_intervals 90 (by norm_num) (by norm_num)).1 ⟨by norm_num, by norm_num⟩
  · exact (fourPoint_intervals 300 (by norm_num) (by norm_num)).2.1 ⟨by norm_num, by norm_num⟩

end WeatherAgent

namespace WeatherAgent

/-! ### C9: the easterly analysis -/

theorem isEasterly_iff (d : ℚ) : isEasterly d = true ↔ degToCompass2 d = "E" := by
  by_cases hc : 0 < goNormalize d ∧ goNormalize d < 180
  · simp [isEasterly, degToCompass2, hc]
  · simp [isEasterly, degToCompass2, hc]

theorem countEasterlyDays_eq_filter (days : List ForecastDay) :
    countEasterlyDays days =
      (days.filter fun d => degToCompass2 d.windDirMean == "E").length := by
  induction days with
  | nil => rfl
  | cons d rest ih =>
    simp only [countEasterlyDays, List.filter_cons, ih]
    by_cases he : isEasterly d.windDirMean
    · have hbe : (degToCompass2 d.windDirMean == "E") = true :=
        beq_iff_eq.mpr ((isEasterly_iff _).mp he)
      rw [if_pos he, if_pos hbe, List.length_cons]
      omega
    · have hbe : ¬ ((degToCompass2 d.windDirMean == "E") = true) := by
        intro hb
        exact he ((isEasterly_iff _).mpr (beq_iff_eq.mp hb))
      rw [if_neg he, if_neg hbe]
      omega

theorem countEasterlyDays_le (days : List ForecastDay) :
    countEasterlyDays days ≤ days.length := by
  induction days with
  | nil => exact Nat.le_refl 0
  | cons d rest ih =>
    by_cases he : isEasterly d.windDirMean <;>
      simp [countEasterlyDays, he] <;> omega

theorem countEasterlyDays_all_east (days : List ForecastDay)
    (h : ∀ d ∈ days, degToCompass2 d.windDirMean = "E") :
    countEasterlyDays days = days.length := by
  induction days with
  | nil => rfl
  | cons d rest ih =>
    have he : isEasterly d.windDirMean :=
      (isEasterly_iff _).mpr (h d (List.mem_cons_self d rest))
    have := ih fun x hx => h x (List.mem_cons_of_mem d hx)
    simp [countEasterlyDays, he, this]
    omega

/-- C9 (confirmed): the analysis counts easterly days via the two-point
policy, sets westCount to total minus eastCount, and the dominant label is
East when eastCount > westCount, West when westCount > eastCount, Mixed
otherwise; every-day-East (nonempty) gives dominant East with westCount 0,
and the empty sequence gives both counts 0 and Mixed. -/
theorem easterly_analysis_spec (days : List ForecastDay) :
    countEasterlyDays days =
      (days.filter fun d => degToCompass2 d.windDirMean == "E").length ∧
    (days.length - countEasterlyDays days < countEasterlyDays days →
      analysisDominant days = "E ✈️") ∧
    (countEasterlyDays days < days.length - countEasterlyDays days →
      analysisDominant days = "W") ∧
    (countEasterlyDays days = days.length - countEasterlyDays days →
      analysisDominant days = "Mixed") ∧
    (days ≠ [] → (∀ d ∈ days, degToCompass2 d.windDirMean = "E") →
      analysisDominant days = "E ✈️" ∧ days.length - countEasterlyDays days = 0) ∧
    countEasterlyDays ([] : List ForecastDay) = 0 ∧
    analysisDominant [] = "Mixed" := by
  refine ⟨countEasterlyDays_eq_filter days, ?_, ?_, ?_, ?_, rfl, rfl⟩
  · intro hgt
    simp only [analysisDominant]
    rw [if_pos hgt]
  · intro hlt
    simp only [analysisDominant]
    rw [if_neg (by omega), if_pos hlt]
  · intro heq
    simp only [analysisDominant]
    rw [if_neg (by omega), if_neg (by omega)]
  · intro hne hall
    have hcnt := countEasterlyDays_all_east days hall
    have hpos : 0 < days.length := List.length_pos.mpr hne
    constructor
    · simp only [analysisDominant]
      rw [if_pos (by omega)]
    · omega

/-- C9 witness: the analysis at a one-day all-easterly list and at the
empty list. -/
theorem easterly_analysis_spec_witness :
    analysisDominant [⟨⟨2025, 1, 1⟩, 10, 20, 90⟩] = "E ✈️" ∧
    analysisDominant [] = "Mixed" := by
  have h := easterly_analysis_spec [⟨⟨2025, 1, 1⟩, 10, 20, 90⟩]
  refine ⟨(h.2.2.2.2.1 (by simp) ?_).1, (easterly_analysis_spec []).2.2.2.2.2.2⟩
  intro d hd
  have : d = ⟨⟨2025, 1, 1⟩, 10, 20, 90⟩ := by simpa using hd
  subst this
  norm_num [degToCompass2, goNormalize, goInt, goMod360]

/-! ### C5: one cycle's notification decision -/

/-- C5 (confirmed): with both clients present and a chat destination
configured, an LLM success sends exactly two messages, the fenced table
plus analysis first and the summary second; an LLM failure sends exactly
one fallback message, the fenced table plus analysis, and the cycle still
completes (no abort). -/
theorem runCycle_notifications (token chatID report analysis : String)
    (htok : token ≠ "") (hchat : chatID ≠ "") :
    (∀ s, runCycle true true token chatID report analysis (some s) =
      .done [formatTelegramTable report ++ "\n" ++ analysis, s]) ∧
    runCycle true true token chatID report analysis none =
      .done [formatTelegramTable report ++ "\n" ++ analysis] := by
  constructor
  · intro s
    simp [runCycle, htok, hchat]
  · simp [runCycle, htok, hchat]

/-- C5 witness: the two scenarios at concrete strings. -/
theorem runCycle_notifications_witness :
    runCycle true true "tok" "chat" "table" "analysis" (some "summary") =
      .done [formatTelegramTable "table" ++ "\n" ++ "analysis", "summary"] ∧
    runCycle true true "tok" "chat" "table" "analysis" none =
      .done [formatTelegramTable "table" ++ "\n" ++ "analysis"] := by
  have h := runCycle_notifications "tok" "chat" "table" "analysis"
    (by decide) (by decide)
  exact ⟨h.1 "summary", h.2⟩

/-! ### C7: the next trigger instant -/

/-- C7 (confirmed): the next wake instant is today at runHour:runMinute
when that instant is strictly in the future, and that instant plus one day
otherwise (equality included); in both cases the next wake instant is
strictly in the future. -/
theorem nextTrigger_spec (now : ℚ) (h m : ℕ) (hh : h < 24) (hm : m < 60) :
    (now < todayTrigger now h m → nextTrigger now h m = todayTrigger now h m) ∧
    (todayTrigger now h m ≤ now →
      nextTrigger now h m = todayTrigger now h m + 86400) ∧
    now < nextTrigger now h m := by
  have hday : now < 86400 * ((⌊now / 86400⌋ : ℚ) + 1) := by
    have h1 : now / 86400 < (⌊now / 86400⌋ : ℚ) + 1 := Int.lt_floor_add_one _
    have h2 := (div_lt_iff₀ (by norm_num : (0 : ℚ) < 86400)).mp h1
    linarith
  have hcast1 : (0 : ℚ) ≤ (h : ℚ) := Nat.cast_nonneg h
  have hcast2 : (0 : ℚ) ≤ (m : ℚ) := Nat.cast_nonneg m
  refine ⟨fun hlt => ?_, fun hge => ?_, ?_⟩
  · rw [nextTrigger, if_pos hlt]
  · rw [nextTrigger, if_neg (not_lt.mpr hge)]
  · by_cases hc : now < todayTrigger now h m
    · rw [nextTrigger, if_pos hc]
      exact hc
    · rw [nextTrigger, if_neg hc]
      rw [todayTrigger] at hc ⊢
      nlinarith
  
/-- C7 witness: at 09:00 UTC with trigger 10:00 the next wake is today at
10:00 (second 36000 of the day); at 10:01 it is tomorrow at 10:00. -/
theorem nextTrigger_spec_witness :
    nextTrigger 32400 10 0 = 36000 ∧ nextTrigger 36060 10 0 = 122400 := by
  have e1 : todayTrigger 32400 10 0 = 36000 := by
    norm_num [todayTrigger]
  have e2 : todayTrigger 36060 10 0 = 36000 := by
    norm_num [todayTrigger]
  constructor
  · have h1 := (nextTrigger_spec 32400 10 0 (by norm_num) (by norm_num)).1
    rw [← e1]
    exact h1 (by rw [e1]; norm_num)
  · have h2 := (nextTrigger_spec 36060 10 0 (by norm_num) (by norm_num)).2.1
    rw [h2 (by rw [e2]; norm_num), e2]
    norm_num

/-! ### C10: the constructor -/

/-- C10 (confirmed): `New` replaces a zero or negative ForecastDays by 15,
keeps a positive ForecastDays unchanged, and stores every other
configuration field as given. -/
theorem New_spec (cfg : Config) :
    (cfg.forecastDays ≤ 0 → (New cfg).cfg.forecastDays = 15) ∧
    (0 < cfg.forecastDays → (New cfg).cfg.forecastDays = cfg.forecastDays) ∧
    (New cfg).cfg.locationName = cfg.locationName ∧
    (New cfg).cfg.weather = cfg.weather ∧
    (New cfg).cfg.ollama = cfg.ollama ∧
    (New cfg).cfg.telegramToken = cfg.telegramToken ∧
    (New cfg).cfg.telegramChatID = cfg.telegramChatID := by
  by_cases hc : cfg.forecastDays ≤ 0
  · refine ⟨fun _ => ?_, fun hgt => absurd hgt (by omega), ?_, ?_, ?_, ?_, ?_⟩ <;>
      simp [New, hc]
  · refine ⟨fun hle => absurd hle hc, fun _ => ?_, ?_, ?_, ?_, ?_, ?_⟩ <;>
      simp [New, hc]

/-- C10 witness: the constructor at a zero and at a positive day count. -/
theorem New_spec_witness :
    (New ⟨"Heathrow", 0, true, true, "t", "c"⟩).cfg.forecastDays = 15 ∧
    (New ⟨"Heathrow", 7, true, true, "t", "c"⟩).cfg.forecastDays = 7 ∧
    (New ⟨"Heathrow", 0, true, true, "t", "c"⟩).cfg.locationName = "Heathrow" := by
  exact ⟨(New_spec _).1 (by norm_num), (New_spec _).2.1 (by norm_num),
    (New_spec _).2.2.1⟩

end WeatherAgent

namespace WeatherAgent

/-! ### C4: the wind normalizer -/

theorem buildDays_ok : ∀ (ts : List String) (sps gus dis : List ℚ),
    ts.length = sps.length → ts.length = gus.length → ts.length = dis.length →
    (∀ s ∈ ts, (parseDate s).isSome) →
    ∃ l, buildDays ts sps gus dis = .ok l ∧ l.length = ts.length ∧
      ∀ i s, ts.get? i = some s →
        ∃ day, l.get? i = some day ∧ parseDate s = some day.date ∧
          sps.get? i = some day.windSpeedMax ∧ gus.get? i = some day.windGustMax ∧
          dis.get? i = some day.windDirMean := by
  intro ts
  induction ts with
  | nil =>
    intro sps gus dis _ _ _ _
    exact ⟨[], rfl, rfl, fun i s hs => by simp at hs⟩
  | cons t ts ih =>
    intro sps gus dis h1 h2 h3 hp
    cases sps with
    | nil => simp at h1
    | cons sp sps =>
      cases gus with
      | nil => simp at h2
      | cons gu gus =>
        cases dis with
        | nil => simp at h3
        | cons di dis =>
          obtain ⟨d0, hd0⟩ := Option.isSome_iff_exists.mp (hp t (List.mem_cons_self t ts))
          obtain ⟨l, hbl, hlen, hel⟩ := ih sps gus dis (by simpa using h1)
            (by simpa using h2) (by simpa using h3)
            (fun s hs => hp s (List.mem_cons_of_mem t hs))
          refine ⟨⟨d0, sp, gu, di⟩ :: l, ?_, ?_, ?_⟩
          · simp only [buildDays, hd0, hbl]
          · simp [hlen]
          · intro i s hs
            cases i with
            | zero =>
              have hts : t = s := by simpa using hs
              subst hts
              exact ⟨⟨d0, sp, gu, di⟩, rfl, hd0, rfl, rfl, rfl⟩
            | succ n =>
              exact hel n s (by simpa using hs)

theorem buildDays_first_err : ∀ (ts : List String) (sps gus dis : List ℚ),
    ts.length = sps.length → ts.length = gus.length → ts.length = dis.length →
    (∃ s ∈ ts, parseDate s = none) →
    ∃ s ∈ ts, parseDate s = none ∧
      buildDays ts sps gus dis = .error (.dateParse s) := by
  intro ts
  induction ts with
  | nil =>
    intro sps gus dis _ _ _ h
    simp at h
  | cons t ts ih =>
    intro sps gus dis h1 h2 h3 hex
    cases sps with
    | nil => simp at h1
    | cons sp sps =>
      cases gus with
      | nil => simp at h2
      | cons gu gus =>
        cases dis with
        | nil => simp at h3
        | cons di dis =>
          by_cases hp : parseDate t = none
          · exact ⟨t, List.mem_cons_self t ts, hp, by simp only [buildDays, hp]⟩
          · obtain ⟨d0, hd0⟩ := Option.ne_none_iff_exists'.mp hp
            have hex' : ∃ s ∈ ts, parseDate s = none := by
              obtain ⟨s, hs, hns⟩ := hex
              rcases List.mem_cons.mp hs with rfl | hs'
              · exact absurd hns hp
              · exact ⟨s, hs', hns⟩
            obtain ⟨s, hsmem, hsnone, herr⟩ := ih sps gus dis (by simpa using h1)
              (by simpa using h2) (by simpa using h3) hex'
            exact ⟨s, List.mem_cons_of_mem t hsmem, hsnone,
              by simp only [buildDays, hd0, herr]⟩

/-- C4 (confirmed): `toForecastDays` fails with the empty-data error on an
empty date sequence; with the shape-mismatch error when any metric array's
length differs from the date array's; with a date-parse error when (shapes
fine) some date string does not parse; and on success returns exactly one
`ForecastDay` per input date, in input order, carrying the parsed date and
the metrics at the same index. -/
theorem toForecastDays_spec (d : openMeteoDaily) :
    (d.time = [] → toForecastDays d = .error .emptyData) ∧
    (d.time ≠ [] →
      (d.time.length ≠ d.windSpeedMax.length ∨ d.time.length ≠ d.windGustMax.length ∨
        d.time.length ≠ d.windDirMean.length) →
      toForecastDays d = .error .shapeMismatch) ∧
    (d.time.length = d.windSpeedMax.length →
      d.time.length = d.windGustMax.length → d.time.length = d.windDirMean.length →
      ((∃ s ∈ d.time, parseDate s = none) →
        ∃ s ∈ d.time, parseDate s = none ∧ toForecastDays d = .error (.dateParse s)) ∧
      ((d.time ≠ [] → ∀ s ∈ d.time, (parseDate s).isSome) →
        d.time ≠ [] →
        ∃ l, toForecastDays d = .ok l ∧ l.length = d.time.length ∧
          ∀ i s, d.time.get? i = some s →
            ∃ day, l.get? i = some day ∧ parseDate s = some day.date ∧
              d.windSpeedMax.get? i = some day.windSpeedMax ∧
              d.windGustMax.get? i = some day.windGustMax ∧
              d.windDirMean.get? i = some day.windDirMean)) := by
  refine ⟨fun he => ?_, fun hne hmis => ?_, fun h1 h2 h3 => ⟨fun hex => ?_, fun hall hne => ?_⟩⟩
  · rw [toForecastDays, if_pos he]
  · rw [toForecastDays, if_neg hne, if_pos hmis]
  · have hne : d.time ≠ [] := by
      obtain ⟨s, hs, _⟩ := hex
      exact List.ne_nil_of_mem hs
    have hcond : ¬ (d.time.length ≠ d.windSpeedMax.length ∨
        d.time.length ≠ d.windGustMax.length ∨
        d.time.length ≠ d.windDirMean.length) := by
      push_neg
      exact ⟨h1, h2, h3⟩
    obtain ⟨s, hm, hn, he⟩ :=
      buildDays_first_err d.time d.windSpeedMax d.windGustMax d.windDirMean h1 h2 h3 hex
    refine ⟨s, hm, hn, ?_⟩
    rw [toForecastDays, if_neg hne, if_neg hcond]
    exact he
  · have hcond : ¬ (d.time.length ≠ d.windSpeedMax.length ∨
        d.time.length ≠ d.windGustMax.length ∨
        d.time.length ≠ d.windDirMean.length) := by
      push_neg
      exact ⟨h1, h2, h3⟩
    obtain ⟨l, hb, hlen, hel⟩ :=
      buildDays_ok d.time d.windSpeedMax d.windGustMax d.windDirMean h1 h2 h3 (hall hne)
    refine ⟨l, ?_, hlen, hel⟩
    rw [toForecastDays, if_neg hne, if_neg hcond]
    exact hb

/-- C4 witness: 3 dates with metric arrays of length 2 give the
shape-mismatch error, 0 dates give the empty-data error, and a well-shaped
payload succeeds with one record per date. -/
theorem toForecastDays_spec_witness :
    toForecastDays ⟨["2025-01-01", "2025-01-02", "2025-01-03"],
      [1, 2], [1, 2], [1, 2]⟩ = .error .shapeMismatch ∧
    toForecastDays ⟨[], [], [], []⟩ = .error .emptyData ∧
    ∃ l, toForecastDays ⟨["2025-01-01"], [5], [9], [90]⟩ = .ok l ∧ l.length = 1 := by
  refine ⟨?_, ?_, ?_⟩
  · exact (toForecastDays_spec _).2.1 (by simp) (Or.inl (by simp))
  · exact (toForecastDays_spec _).1 rfl
  · obtain ⟨l, hb, hlen, _⟩ := ((toForecastDays_spec
      ⟨["2025-01-01"], [5], [9], [90]⟩).2.2 rfl rfl rfl).2
      (fun _ s hs => by
        have : s = "2025-01-01" := by simpa using hs
        subst this
        decide) (by simp)
    exact ⟨l, hb, hlen⟩

/-! ### C3: the rain normalizer can panic on short metric arrays -/

/-- C3: contrary to the claim, a rain payload whose daily date array is
non-empty but whose parallel metric arrays are shorter does not produce a
validation error: `toRainForecasts` indexes the metric arrays unguarded
and panics (modelled as `none`).  First conjunct: one daily date with
empty daily metric arrays.  Second conjunct: well-shaped daily block but a
matching morning hourly entry whose metric arrays are empty. -/
theorem toRainForecasts_oob_panics :
    toRainForecasts ⟨⟨["2025-01-01"], [], []⟩, ⟨[], [], []⟩⟩ = none ∧
    toRainForecasts ⟨⟨["2025-01-01"], [0], [0]⟩,
      ⟨["2025-01-01T07:00"], [], []⟩⟩ = none := by
  exact ⟨rfl, rfl⟩

/-! ### C6: hourly attribution in the rain normalizer -/

theorem hourlyScan_spec (d : Date) :
    ∀ (ts : List String) (probs : List ℤ) (precs : List ℚ),
      ts.length ≤ probs.length → ts.length ≤ precs.length →
      hourlyScan d ts probs precs =
        some (morningProbSpec d (ts.zip probs), morningMMSpec d (ts.zip precs),
              afternoonProbSpec d (ts.zip probs)) := by
  intro ts
  induction ts with
  | nil =>
    intro probs precs _ _
    simp [hourlyScan, morningProbSpec, morningMMSpec, afternoonProbSpec]
  | cons t ts ih =>
    intro probs precs h1 h2
    cases probs with
    | nil => simp at h1
    | cons p ps =>
      cases precs with
      | nil => simp at h2
      | cons c cs =>
        have hrec := ih ps cs (by simpa using h1) (by simpa using h2)
        cases hpt : parseDateTime t with
        | none =>
          simp [hourlyScan, morningProbSpec, morningMMSpec, afternoonProbSpec,
            List.filterMap_cons, hpt, hrec]
        | some dt =>
          by_cases hd : dt.date = d
          · by_cases hm : 6 ≤ dt.hour ∧ dt.hour ≤ 10 <;>
              by_cases ha : 15 ≤ dt.hour ∧ dt.hour ≤ 18 <;>
                simp [hourlyScan, morningProbSpec, morningMMSpec, afternoonProbSpec,
                  List.filterMap_cons, hpt, hd, hm, ha, hrec]
          · simp [hourlyScan, morningProbSpec, morningMMSpec, afternoonProbSpec,
              List.filterMap_cons, hpt, hd, hrec]

/-- C6 (confirmed): the hourly scan attributes a sample to a day exactly
when its timestamp parses and matches the day's (year, month, day),
appending morning probabilities and millimetres for hours in [6,10] and
afternoon probabilities for hours in [15,18], skipping unparseable hourly
timestamps silently (first conjunct, stated via the filterMap reference
views).  Concretely (second conjunct): 07:15 on the matching date
populates the morning lists, 16:00 the afternoon list, 12:00 neither, a
next-day 07:00 is ignored, and a malformed hourly string is skipped.
Third conjunct: a malformed daily date fails the whole call with a
date-parse error. -/
theorem rain_hourly_attribution :
    (∀ (d : Date) (ts : List String) (probs : List ℤ) (precs : List ℚ),
      ts.length ≤ probs.length → ts.length ≤ precs.length →
      hourlyScan d ts probs precs =
        some (morningProbSpec d (ts.zip probs), morningMMSpec d (ts.zip precs),
              afternoonProbSpec d (ts.zip probs))) ∧
    toRainForecasts ⟨⟨["2025-03-10"], [2], [80]⟩,
      ⟨["2025-03-10T07:15", "2025-03-10T16:00", "2025-03-10T12:00",
        "2025-03-11T07:00", "garbage"], [1, 2, 3, 4, 5], [10, 20, 30, 40, 50]⟩⟩ =
      some (.ok [⟨⟨2025, 3, 10⟩, 80, 2, [1], [10], [2]⟩]) ∧
    toRainForecasts ⟨⟨["2025-13-40"], [2], [80]⟩, ⟨[], [], []⟩⟩ =
      some (.error (.dateParse "2025-13-40")) :=
  ⟨fun d ts probs precs h1 h2 => hourlyScan_spec d ts probs precs h1 h2, rfl, rfl⟩

/-- C6 witness: the scan characterization applied to a concrete two-entry
hourly series with a morning and an afternoon sample. -/
theorem rain_hourly_attribution_witness :
    hourlyScan ⟨2025, 3, 10⟩ ["2025-03-10T07:15", "2025-03-10T16:00"]
      [1, 2] [10, 20] = some ([1], [10], [2]) := by
  have h := rain_hourly_attribution.1 ⟨2025, 3, 10⟩
    ["2025-03-10T07:15", "2025-03-10T16:00"] [1, 2] [10, 20]
    (by simp) (by simp)
  rw [h]
  rfl

end WeatherAgent
